import Mathlib

/-!
# queries.js : load step and the six report questions

A shallow embedding of `src/queries.js`.  The script loads seven JSON record
sets into a document store (drop, decorate with normalised dates, insertMany)
and then runs six fixed questions (`find`, `aggregate`, `distinct`).

Modelling conventions

* A JavaScript `Date` is its time value: an integer number of milliseconds
  since 1970-01-01T00:00:00Z.
* JSON numbers are integers (ids and counts); floating point is not modelled.
* A field that may be missing is an `Option`: `none` is an absent field,
  `some Scalar.null` is a field holding `null`.
* The store operators used by the script (`find`, `$match`, `$lookup`,
  `$unwind`, `$project`, `$group`/`$sum`, `$size`, `$ifNull`, `distinct`) are
  written out as list functions following their documented behaviour; `find`
  and `aggregate` read a collection in collection order.
* What the store decides and no source line fixes is a parameter: the order
  of the array joined by the `$lookup` of question 3 (`LookupOrder`), and the
  value `$sum` returns once the sum leaves the range in which doubles are
  exact (`beyond`).  The arrays joined in questions 1 and 4 enter the
  statements only through their members.
* Identifier assignment by the store and unique-key violations are outside the
  script; seed records carry their own `_id` (source line 53).
-/

namespace Queries

/-! ## Values -/

/-- A scalar held by a record field: a JSON scalar or a `Date`. -/
inductive Scalar where
  | null
  | bool (b : Bool)
  | num (n : Int)
  | str (s : String)
  | date (ms : Int)
  deriving DecidableEq

/-- Modelled from the spec: record identifiers (the seed files under
`sample-data/` are not part of the sources).  Identifiers are opaque keys
(section 3); they are numbers or strings, never `null`. -/
inductive Id where
  | num (n : Int)
  | str (s : String)
  deriving DecidableEq

/-- An identifier seen as a field value. -/
def Id.toScalar : Id → Scalar
  | .num n => .num n
  | .str s => .str s

/-- Modelled from the spec: a field holding a sequence of ids
(`students_attended`, `mentees`); it may be absent or `null`. -/
inductive IdList where
  | absent
  | null
  | arr (xs : List Scalar)
  deriving DecidableEq

/-! ## Calendar arithmetic for the date literals (ECMAScript 21.4.1) -/

/-- ECMAScript `DayFromYear`. -/
def dayFromYear (y : Int) : Int :=
  365 * (y - 1970) + (y - 1969) / 4 - (y - 1901) / 100 + (y - 1601) / 400

/-- Leap year test of the Gregorian calendar. -/
def inLeapYear (y : Int) : Bool :=
  (y % 4 == 0 && y % 100 != 0) || y % 400 == 0

/-- Number of days before the first day of month `m` (1-based) in year `y`. -/
def daysBeforeMonth (y : Int) (m : Nat) : Int :=
  let leap : Int := if inLeapYear y then 1 else 0
  match m with
  | 1 => 0
  | 2 => 31
  | 3 => 59 + leap
  | 4 => 90 + leap
  | 5 => 120 + leap
  | 6 => 151 + leap
  | 7 => 181 + leap
  | 8 => 212 + leap
  | 9 => 243 + leap
  | 10 => 273 + leap
  | 11 => 304 + leap
  | _ => 334 + leap

/-- Time value of the UTC instant `y-m-dTh:mi:sZ` (`MakeDate (MakeDay ..) (MakeTime ..)`). -/
def utc (y : Int) (m d h mi s : Nat) : Int :=
  (dayFromYear y + daysBeforeMonth y m + ((d : Int) - 1)) * 86400000
    + (h : Int) * 3600000 + (mi : Int) * 60000 + (s : Int) * 1000

/-- Source line 62: `new Date('2020-10-15T00:00:00Z')`. -/
def startRange : Int := utc 2020 10 15 0 0 0

/-- Source line 63: `new Date('2020-10-31T23:59:59Z')`. -/
def endRange : Int := utc 2020 10 31 23 59 59

/-- Source lines 67, 71, 76: `new Date('2020-10-01T00:00:00Z')`. -/
def octStart : Int := utc 2020 10 1 0 0 0

/-- Source lines 67, 71, 76: `new Date('2020-11-01T00:00:00Z')`. -/
def novStart : Int := utc 2020 11 1 0 0 0

/-! ## Records -/

/-- Modelled from the spec: a seed record as read from `sample-data/*.json`
(section 3 and section 9): the raw date fields the loader inspects, the
entity's own fields `rest`, and any further fields `extra`, passed through
untouched.  The normalised fields are derived at load time and are not part of
a seed record. -/
structure Seed (α : Type) where
  date : Option Scalar
  drive_date : Option Scalar
  rest : α
  extra : List (String × Scalar)
  deriving DecidableEq

/-- A stored record: the seed record's fields plus the two fields the loader
may add (`dateISO`, `drive_dateISO`). -/
structure Doc (α : Type) where
  date : Option Scalar
  drive_date : Option Scalar
  dateISO : Option Scalar
  drive_dateISO : Option Scalar
  rest : α
  extra : List (String × Scalar)
  deriving DecidableEq

/-- Modelled from the spec: fields of a user (section 3). -/
structure UserFields where
  _id : Id
  name : Option Scalar
  email : Option Scalar
  deriving DecidableEq

/-- Modelled from the spec: fields of a code-kata record (section 3). -/
structure CodeKataFields where
  _id : Id
  user_id : Option Scalar
  problems_solved : Option Scalar
  deriving DecidableEq

/-- Modelled from the spec: fields of an attendance record (section 3). -/
structure AttendanceFields where
  _id : Id
  user_id : Option Scalar
  status : Option Scalar
  deriving DecidableEq

/-- Modelled from the spec: fields of a topic (section 3). -/
structure TopicFields where
  _id : Id
  topic : Option Scalar
  deriving DecidableEq

/-- Modelled from the spec: fields of a task (section 3). -/
structure TaskFields where
  _id : Id
  task_name : Option Scalar
  user_id : Option Scalar
  topic_id : Option Scalar
  submitted : Option Scalar
  deriving DecidableEq

/-- Modelled from the spec: fields of a company drive (section 3). -/
structure DriveFields where
  _id : Id
  company : Option Scalar
  students_attended : IdList
  deriving DecidableEq

/-- Modelled from the spec: fields of a mentor (section 3). -/
structure MentorFields where
  _id : Id
  mentor_name : Option Scalar
  mentees : IdList
  deriving DecidableEq

/-! ## Temporal normaliser (source lines 15-23) -/

/-- JavaScript truthiness of a field value; an absent field is `undefined`. -/
def truthy : Option Scalar → Bool
  | none => false
  | some .null => false
  | some (.bool b) => b
  | some (.num n) => n != 0
  | some (.str s) => s != ""
  | some (.date _) => true

/-- The constructor call `new Date(value)` followed by `getTime()`: `none` is `NaN`.
Strings go through `Date.parse`, which is implementation-defined outside
the ISO format and is the parameter `parse`; other values are converted to a
number and clipped (`TimeClip`). -/
def newDate (parse : String → Option Int) : Option Scalar → Option Int
  | none => none
  | some .null => some 0
  | some (.bool b) => some (if b then 1 else 0)
  | some (.num n) => if n.natAbs ≤ 8640000000000000 then some n else none
  | some (.str s) => parse s
  | some (.date ms) => some ms

/-- Source lines 15-23. -/
def toISODate (parse : String → Option Int) (value : Option Scalar) : Scalar :=
  if !truthy value then .null
  else match value with
    | some (.date ms) => .date ms
    | _ =>
      match newDate parse value with
      | some ms => .date ms
      | none => .null

/-! ## Collection loader (source lines 41-59) -/

/-- Source lines 49-55: the callback of `docs.map`. -/
def prepare {α : Type} (parse : String → Option Int) (doc : Seed α) : Doc α :=
  { date := doc.date
    drive_date := doc.drive_date
    dateISO := if truthy doc.date then some (toISODate parse doc.date) else none
    drive_dateISO :=
      if truthy doc.drive_date then some (toISODate parse doc.drive_date) else none
    rest := doc.rest
    extra := doc.extra }

/-- The store: the contents of every named collection, in insertion order. -/
abbrev Store (α : Type) := String → List (Doc α)

/-- A store command issued by the load loop. -/
inductive StoreOp (α : Type) where
  | drop (name : String)
  | insertMany (name : String) (docs : List (Doc α))

/-- Effect of one store command.  Dropping a missing collection fails in the
store and the failure is ignored (source line 45): either way it is empty. -/
def StoreOp.run {α : Type} : StoreOp α → Store α → Store α
  | .drop name, s => fun n => if n = name then [] else s n
  | .insertMany name docs, s => fun n => if n = name then s n ++ docs else s n

/-- Source lines 45-57: the store commands issued for one file. -/
def loadOps {α : Type} (parse : String → Option Int) (name : String)
    (docs : List (Seed α)) : List (StoreOp α) :=
  let prepared := docs.map (prepare parse)
  StoreOp.drop name ::
    (if prepared.length ≠ 0 then [StoreOp.insertMany name prepared] else [])

/-- Source line 58: the count printed for one file. -/
def insertedCount {α : Type} (parse : String → Option Int) (docs : List (Seed α)) : Nat :=
  (docs.map (prepare parse)).length

/-- One iteration of the load loop: the store afterwards and the count printed. -/
def loadCollection {α : Type} (parse : String → Option Int) (name : String)
    (docs : List (Seed α)) (s : Store α) : Store α × Nat :=
  ((loadOps parse name docs).foldl (fun st op => op.run st) s, insertedCount parse docs)

/-! ## Store operators used by the questions -/

/-- The filter `{ $gte: lo, $lt: hi }` with date bounds: comparison operators
only match values of the bound's type, so only a date can match. -/
def matchGteLt (lo hi : Int) : Option Scalar → Bool
  | some (.date t) => decide (lo ≤ t) && decide (t < hi)
  | _ => false

/-- The filter `{ $gte: lo, $lte: hi }` with date bounds. -/
def matchGteLte (lo hi : Int) : Option Scalar → Bool
  | some (.date t) => decide (lo ≤ t) && decide (t ≤ hi)
  | _ => false

/-- The equality filter `{ field: v }` on a scalar field: the field is present
and holds `v` (here `v` is never `null`). -/
def matchEq (v : Scalar) (field : Option Scalar) : Bool :=
  field == some v

/-- The filter `{ field: { $in: vs } }` on a scalar field; an absent field
matches exactly when `null` is listed. -/
def matchIn (vs : List Scalar) : Option Scalar → Bool
  | some v => decide (v ∈ vs)
  | none => decide (Scalar.null ∈ vs)

/-- Result of `distinct(field, filter)` given the field of each matching
record: the distinct values present; an absent field contributes nothing. -/
def distinct (fields : List (Option Scalar)) : List Scalar :=
  (fields.filterMap id).dedup

/-- Join key of a scalar `localField` or `foreignField` of `$lookup`: an absent
field is matched as `null`. -/
def lookupKey (field : Option Scalar) : Scalar :=
  field.getD .null

/-- Join keys of an array `localField` of `$lookup`: the elements; an absent,
`null` or empty field is matched as `null`. -/
def lookupKeys : IdList → List Scalar
  | .arr (x :: xs) => x :: xs
  | _ => [.null]

/-- The expression `{ $ifNull: [field, []] }`. -/
def ifNullEmpty : IdList → List Scalar
  | .arr xs => xs
  | _ => []

/-- The number held by a field, if it holds one; the accumulator `$sum` adds
the numeric values and ignores all others. -/
def numericValue : Option Scalar → Option Int
  | some (.num n) => some n
  | _ => none

/-- Contribution of one field value to an exact sum: its number, 0 otherwise. -/
def numeric : Option Scalar → Int
  | some (.num n) => n
  | _ => 0

/-- The accumulator `$sum` over the numeric values of a group.  The values
reach the store as 32-bit integers or doubles and the result comes back as a
JavaScript number.  While the absolute values add up to at most `2 ^ 53`,
every value and every partial sum, in any order, is an integer that these
formats hold exactly, and the result is the exact sum.  Past that the store
rounds, and the result is the parameter `beyond`. -/
def storeSum (beyond : List Int → Int) (xs : List Int) : Int :=
  if (xs.map Int.natAbs).sum ≤ 2 ^ 53 then xs.sum else beyond xs

/-! ## Question 1 (source lines 65-82) -/

/-- Source lines 67, 71, 76: the October 2020 filter on `dateISO`. -/
def inOctober {α : Type} (d : Doc α) : Bool :=
  matchGteLt octStart novStart d.dateISO

/-- Source line 67. -/
def topicsOct (topics : List (Doc TopicFields)) : List (Doc TopicFields) :=
  topics.filter inOctober

/-- Source line 71. -/
def tasksOct (tasks : List (Doc TaskFields)) : List (Doc TaskFields) :=
  tasks.filter inOctober

/-- A task as projected at source line 78. -/
structure TaskView where
  _id : Id
  task_name : Option Scalar
  user_id : Option Scalar
  submitted : Option Scalar
  date : Option Scalar
  deriving DecidableEq

/-- A row of `topicsWithTasks` (source line 78). -/
structure TopicWithTasks where
  _id : Id
  topic : Option Scalar
  date : Option Scalar
  tasks : List TaskView
  deriving DecidableEq

/-- Source line 76: the `$match` stage. -/
def topicsWithTasksMatch (topics : List (Doc TopicFields)) : List (Doc TopicFields) :=
  topics.filter inOctober

/-- Source line 77: the `$lookup` stage for one topic. -/
def tasksOfTopic (tasks : List (Doc TaskFields)) (t : Doc TopicFields) : List (Doc TaskFields) :=
  tasks.filter (fun k => lookupKey k.rest.topic_id == t.rest._id.toScalar)

/-- Source line 78: projection of a joined task. -/
def TaskView.ofDoc (k : Doc TaskFields) : TaskView :=
  { _id := k.rest._id, task_name := k.rest.task_name, user_id := k.rest.user_id,
    submitted := k.rest.submitted, date := k.date }

/-- Source lines 75-79. -/
def topicsWithTasks (topics : List (Doc TopicFields)) (tasks : List (Doc TaskFields)) :
    List TopicWithTasks :=
  (topicsWithTasksMatch topics).map fun t =>
    { _id := t.rest._id, topic := t.rest.topic, date := t.date,
      tasks := (tasksOfTopic tasks t).map TaskView.ofDoc }

/-! ## Questions 2 and 3 (source lines 84-98) -/

/-- Source lines 86 and 92: the closed-range filter on `drive_dateISO`. -/
def driveInRange (d : Doc DriveFields) : Bool :=
  matchGteLte startRange endRange d.drive_dateISO

/-- Source line 86. -/
def drives (company_drives : List (Doc DriveFields)) : List (Doc DriveFields) :=
  company_drives.filter driveInRange

/-- A student as projected at source line 94. -/
structure StudentView where
  _id : Id
  name : Option Scalar
  email : Option Scalar
  deriving DecidableEq

/-- A row of `drivesWithStudents` (source line 94). -/
structure DriveWithStudents where
  _id : Id
  company : Option Scalar
  drive_date : Option Scalar
  students : List StudentView
  deriving DecidableEq

/-- The order in which the `$lookup` of question 3 lists the users joined to a
drive.  The pipeline at source lines 91-95 has no `$sort` and the store
promises no order for the joined array, so the order is a parameter: some
arrangement of the matching records, which may depend on the drive. -/
structure LookupOrder where
  arrange : Doc DriveFields → List (Doc UserFields) → List (Doc UserFields)
  perm : ∀ d l, (arrange d l).Perm l

/-- The arrangement of a scan of the users collection: storage order. -/
def LookupOrder.collectionScan : LookupOrder :=
  { arrange := fun _ l => l
    perm := fun _ _ => List.Perm.refl _ }

/-- Key order of the `_id` index: numbers by value, then strings. -/
def Id.le : Id → Id → Bool
  | .num a, .num b => decide (a ≤ b)
  | .num _, .str _ => true
  | .str _, .num _ => false
  | .str a, .str b => !decide (b < a)

/-- The arrangement of a scan of the `_id` index of the users collection:
ascending `_id`. -/
def LookupOrder.idIndexScan : LookupOrder :=
  { arrange := fun _ l =>
      l.insertionSort (fun u v => Id.le u.rest._id v.rest._id = true)
    perm := fun _ l => List.perm_insertionSort _ l }

/-- Source line 93: the `$lookup` stage for one drive. -/
def studentsOfDrive (ord : LookupOrder) (users : List (Doc UserFields)) (d : Doc DriveFields) :
    List (Doc UserFields) :=
  ord.arrange d
    (users.filter fun u => decide (u.rest._id.toScalar ∈ lookupKeys d.rest.students_attended))

/-- Source line 94: projection of a joined user. -/
def StudentView.ofDoc (u : Doc UserFields) : StudentView :=
  { _id := u.rest._id, name := u.rest.name, email := u.rest.email }

/-- Source lines 91-95. -/
def drivesWithStudents (ord : LookupOrder) (company_drives : List (Doc DriveFields))
    (users : List (Doc UserFields)) : List DriveWithStudents :=
  (company_drives.filter driveInRange).map fun d =>
    { _id := d.rest._id, company := d.rest.company, drive_date := d.drive_date,
      students := (studentsOfDrive ord users d).map StudentView.ofDoc }

/-! ## Question 4 (source lines 100-109) -/

/-- A row of `solvedPerUser` (source line 105). -/
structure SolvedRow where
  user_id : Option Scalar
  user : Option Scalar
  problems_solved : Option Scalar
  deriving DecidableEq

/-- Source line 103: the `$lookup` stage for one code-kata record. -/
def usersOfKata (users : List (Doc UserFields)) (c : Doc CodeKataFields) : List (Doc UserFields) :=
  users.filter (fun u => u.rest._id.toScalar == lookupKey c.rest.user_id)

/-- Source lines 104-105: `$unwind` emits one row per joined user, none when
the joined array is empty; `$project` then keeps three fields. -/
def rowsOfKata (users : List (Doc UserFields)) (c : Doc CodeKataFields) : List SolvedRow :=
  (usersOfKata users c).map fun u =>
    { user_id := c.rest.user_id, user := u.rest.name, problems_solved := c.rest.problems_solved }

/-- Source lines 102-106. -/
def solvedPerUser (users : List (Doc UserFields)) (codekata : List (Doc CodeKataFields)) :
    List SolvedRow :=
  codekata.flatMap (rowsOfKata users)

/-- A row of the `$group` stage at source line 108 (its `_id` is `null`). -/
structure GroupTotal where
  total : Int
  deriving DecidableEq

/-- Source line 108: one group over the whole collection; no input, no row. -/
def totalSolved (beyond : List Int → Int) (codekata : List (Doc CodeKataFields)) :
    List GroupTotal :=
  match codekata with
  | [] => []
  | _ :: _ =>
    [{ total := storeSum beyond (codekata.filterMap fun c => numericValue c.rest.problems_solved) }]

/-- Source line 109: `(totalSolved[0] && totalSolved[0].total) || 0`. -/
def reportedTotal (beyond : List Int → Int) (codekata : List (Doc CodeKataFields)) : Int :=
  match totalSolved beyond codekata with
  | [] => 0
  | g :: _ => if g.total ≠ 0 then g.total else 0

/-- The exact sum of `problems_solved` over the rows of the per-user report, as
the specification words it (no line of the script computes it). -/
def rowsTotal (rows : List SolvedRow) : Int :=
  (rows.map fun r => numeric r.problems_solved).sum

/-! ## Question 5 (source lines 111-118) -/

/-- A row of `bigMentors` (source line 114). -/
structure MentorView where
  _id : Id
  mentor_name : Option Scalar
  menteeCount : Nat
  deriving DecidableEq

/-- Source line 114: `{ $size: { $ifNull: ['$mentees', []] } }`. -/
def menteeCount (m : Doc MentorFields) : Nat :=
  (ifNullEmpty m.rest.mentees).length

/-- Source line 114: the `$project` stage. -/
def MentorView.ofDoc (m : Doc MentorFields) : MentorView :=
  { _id := m.rest._id, mentor_name := m.rest.mentor_name,
    menteeCount := Queries.menteeCount m }

/-- Source lines 113-116. -/
def bigMentors (mentors : List (Doc MentorFields)) : List MentorView :=
  (mentors.map MentorView.ofDoc).filter (fun v => decide (v.menteeCount > 15))

/-! ## Question 6 (source lines 120-125) -/

/-- Source lines 122-123: the closed-range filter on `dateISO`. -/
def inRange {α : Type} (d : Doc α) : Bool :=
  matchGteLte startRange endRange d.dateISO

/-- Source line 122. -/
def absentUsers (attendance : List (Doc AttendanceFields)) : List Scalar :=
  distinct ((attendance.filter fun a =>
    matchEq (.str "absent") a.rest.status && inRange a).map fun a => a.rest.user_id)

/-- Source line 123. -/
def usersWhoDidNotSubmit (attendance : List (Doc AttendanceFields))
    (tasks : List (Doc TaskFields)) : List Scalar :=
  distinct ((tasks.filter fun t =>
    matchIn (absentUsers attendance) t.rest.user_id
      && matchEq (.bool false) t.rest.submitted && inRange t).map fun t => t.rest.user_id)

/-- Source line 125: the count printed by question 6. -/
def question6 (attendance : List (Doc AttendanceFields)) (tasks : List (Doc TaskFields)) : Nat :=
  (usersWhoDidNotSubmit attendance tasks).length

/-! ## The students sequence in the words of the specification -/

/-- The students sequence as the specification words it: for each id of
`students_attended`, in that order, the user with that `_id`, if there is one. -/
def studentsInIdOrder (users : List (Doc UserFields)) (d : Doc DriveFields) : List StudentView :=
  (ifNullEmpty d.rest.students_attended).filterMap fun i =>
    (users.find? fun u => u.rest._id.toScalar == i).map StudentView.ofDoc

/-! ## Sample records -/

/-- A user record with a numeric `_id` and a name. -/
def userOf (i : Int) (name : String) : Doc UserFields :=
  { date := none, drive_date := none, dateISO := none, drive_dateISO := none,
    rest := { _id := .num i, name := some (.str name), email := none }, extra := [] }

/-- A code-kata record of user `u` with `p` problems solved. -/
def kataOf (i : Int) (u : Int) (p : Int) : Doc CodeKataFields :=
  { date := none, drive_date := none, dateISO := none, drive_dateISO := none,
    rest := { _id := .num i, user_id := some (.num u), problems_solved := some (.num p) },
    extra := [] }

/-- An attendance record of user `u` with the given status and normalised date. -/
def attendanceOf (i : Int) (u : Scalar) (status : String) (t : Int) : Doc AttendanceFields :=
  { date := none, drive_date := none, dateISO := some (.date t), drive_dateISO := none,
    rest := { _id := .num i, user_id := some u, status := some (.str status) }, extra := [] }

/-- A task of user `u` with the given submission flag and normalised date. -/
def taskOf (i : Int) (u : Scalar) (submitted : Bool) (t : Int) : Doc TaskFields :=
  { date := none, drive_date := none, dateISO := some (.date t), drive_dateISO := none,
    rest := { _id := .num i, task_name := none, user_id := some u, topic_id := none,
              submitted := some (.bool submitted) }, extra := [] }

/-- A company drive with the given normalised date and attendee ids. -/
def driveOf (i : Int) (company : String) (t : Int) (ids : List Scalar) : Doc DriveFields :=
  { date := none, drive_date := none, dateISO := none, drive_dateISO := some (.date t),
    rest := { _id := .num i, company := some (.str company), students_attended := .arr ids },
    extra := [] }

/-- A topic with the given normalised date. -/
def topicOf (i : Int) (name : String) (t : Int) : Doc TopicFields :=
  { date := none, drive_date := none, dateISO := some (.date t), drive_dateISO := none,
    rest := { _id := .num i, topic := some (.str name) }, extra := [] }

/-- A mentor with the given `mentees` field. -/
def mentorOf (i : Int) (name : String) (mentees : IdList) : Doc MentorFields :=
  { date := none, drive_date := none, dateISO := none, drive_dateISO := none,
    rest := { _id := .num i, mentor_name := some (.str name), mentees := mentees },
    extra := [] }

/-- A seed attendance record with the given raw `date`. -/
def seedOf (date : Option Scalar) : Seed AttendanceFields :=
  { date := date, drive_date := none,
    rest := { _id := .num 1, user_id := some (.num 1), status := some (.str "absent") },
    extra := [] }

/-- A date parser for the examples: it reads the one string `2020-10-20T00:00:00Z`. -/
def parseSample (s : String) : Option Int :=
  if s = "2020-10-20T00:00:00Z" then some (utc 2020 10 20 0 0 0) else none

/-! ## Date literals -/

theorem startRange_eq : startRange = 1602720000000 := by decide

theorem endRange_eq : endRange = 1604188799000 := by decide

theorem octStart_eq : octStart = 1601510400000 := by decide

theorem novStart_eq : novStart = 1604188800000 := by decide

/-! ## Lemmas on the store operators -/

theorem matchGteLt_iff (lo hi : Int) (f : Option Scalar) :
    matchGteLt lo hi f = true ↔ ∃ t, f = some (.date t) ∧ lo ≤ t ∧ t < hi := by
  unfold matchGteLt
  split
  · next t => simp
  · next h =>
    constructor
    · intro hf; cases hf
    · rintro ⟨t, rfl, -⟩; exact absurd rfl (h t)

theorem matchGteLte_iff (lo hi : Int) (f : Option Scalar) :
    matchGteLte lo hi f = true ↔ ∃ t, f = some (.date t) ∧ lo ≤ t ∧ t ≤ hi := by
  unfold matchGteLte
  split
  · next t => simp
  · next h =>
    constructor
    · intro hf; cases hf
    · rintro ⟨t, rfl, -⟩; exact absurd rfl (h t)

theorem inOctober_iff {α : Type} (d : Doc α) :
    inOctober d = true ↔ ∃ t, d.dateISO = some (.date t) ∧ octStart ≤ t ∧ t < novStart :=
  matchGteLt_iff _ _ _

theorem inRange_iff {α : Type} (d : Doc α) :
    inRange d = true ↔ ∃ t, d.dateISO = some (.date t) ∧ startRange ≤ t ∧ t ≤ endRange :=
  matchGteLte_iff _ _ _

theorem driveInRange_iff (d : Doc DriveFields) :
    driveInRange d = true ↔
      ∃ t, d.drive_dateISO = some (.date t) ∧ startRange ≤ t ∧ t ≤ endRange :=
  matchGteLte_iff _ _ _

/-! ## Question 2 -/

/-- C2: question 2 returns a drive exactly when its `drive_dateISO` is a date
`t` with 2020-10-15T00:00:00Z <= t <= 2020-10-31T23:59:59Z; drives dated at
either endpoint are returned, and the result keeps collection order. -/
theorem drives_closed_range (company_drives : List (Doc DriveFields)) :
    (∀ d, d ∈ drives company_drives ↔
      d ∈ company_drives ∧
        ∃ t, d.drive_dateISO = some (.date t) ∧
          utc 2020 10 15 0 0 0 ≤ t ∧ t ≤ utc 2020 10 31 23 59 59)
    ∧ (∀ d ∈ company_drives,
        d.drive_dateISO = some (.date (utc 2020 10 15 0 0 0)) → d ∈ drives company_drives)
    ∧ (∀ d ∈ company_drives,
        d.drive_dateISO = some (.date (utc 2020 10 31 23 59 59)) → d ∈ drives company_drives)
    ∧ (drives company_drives).Sublist company_drives := by
  have key : ∀ d, d ∈ drives company_drives ↔
      d ∈ company_drives ∧
        ∃ t, d.drive_dateISO = some (.date t) ∧
          utc 2020 10 15 0 0 0 ≤ t ∧ t ≤ utc 2020 10 31 23 59 59 := by
    intro d
    unfold drives
    rw [List.mem_filter, driveInRange_iff]
    rfl
  refine ⟨key, ?_, ?_, List.filter_sublist _⟩
  · intro d hd h
    exact (key d).2 ⟨hd, _, h, le_refl _, by decide⟩
  · intro d hd h
    exact (key d).2 ⟨hd, _, h, by decide, le_refl _⟩

theorem drives_closed_range_witness :
    driveOf 1 "Acme" (utc 2020 10 31 23 59 59) []
        ∈ [driveOf 1 "Acme" (utc 2020 10 31 23 59 59) []]
    ∧ driveOf 1 "Acme" (utc 2020 10 31 23 59 59) []
        ∈ drives [driveOf 1 "Acme" (utc 2020 10 31 23 59 59) []] :=
  ⟨by decide,
    (drives_closed_range [driveOf 1 "Acme" (utc 2020 10 31 23 59 59) []]).2.2.1 _
      (by decide) rfl⟩

/-! ## Question 1 -/

/-- C3: the three October 2020 filters of question 1 return a record exactly
when its `dateISO` is a date `t` with 2020-10-01T00:00:00Z <= t <
2020-11-01T00:00:00Z; a record dated 2020-10-01T00:00:00Z is returned, one
dated 2020-11-01T00:00:00Z is not, and neither is a record whose `dateISO` is
`null` or absent. -/
theorem october_half_open (topics : List (Doc TopicFields)) (tasks : List (Doc TaskFields)) :
    (∀ d, d ∈ topicsOct topics ↔
      d ∈ topics ∧ ∃ t, d.dateISO = some (.date t) ∧
        utc 2020 10 1 0 0 0 ≤ t ∧ t < utc 2020 11 1 0 0 0)
    ∧ (∀ d, d ∈ tasksOct tasks ↔
      d ∈ tasks ∧ ∃ t, d.dateISO = some (.date t) ∧
        utc 2020 10 1 0 0 0 ≤ t ∧ t < utc 2020 11 1 0 0 0)
    ∧ (∀ d, d ∈ topicsWithTasksMatch topics ↔
      d ∈ topics ∧ ∃ t, d.dateISO = some (.date t) ∧
        utc 2020 10 1 0 0 0 ≤ t ∧ t < utc 2020 11 1 0 0 0)
    ∧ ((topicsWithTasks topics tasks).map (fun r => r._id)
        = (topicsWithTasksMatch topics).map (fun d => d.rest._id))
    ∧ (∀ d, d.dateISO = some (.date (utc 2020 10 1 0 0 0)) →
        (d ∈ topics → d ∈ topicsOct topics ∧ d ∈ topicsWithTasksMatch topics))
    ∧ (∀ d, d.dateISO = some (.date (utc 2020 10 1 0 0 0)) →
        (d ∈ tasks → d ∈ tasksOct tasks))
    ∧ (∀ d, d.dateISO = some (.date (utc 2020 11 1 0 0 0)) →
        d ∉ topicsOct topics ∧ d ∉ topicsWithTasksMatch topics)
    ∧ (∀ d, d.dateISO = some (.date (utc 2020 11 1 0 0 0)) → d ∉ tasksOct tasks)
    ∧ (∀ d, d.dateISO = none ∨ d.dateISO = some .null →
        d ∉ topicsOct topics ∧ d ∉ topicsWithTasksMatch topics)
    ∧ (∀ d, d.dateISO = none ∨ d.dateISO = some .null → d ∉ tasksOct tasks) := by
  have k1 : ∀ (α : Type) (l : List (Doc α)) (d : Doc α), d ∈ l.filter inOctober ↔
      d ∈ l ∧ ∃ t, d.dateISO = some (.date t) ∧
        utc 2020 10 1 0 0 0 ≤ t ∧ t < utc 2020 11 1 0 0 0 := by
    intro α l d
    rw [List.mem_filter, inOctober_iff]
    rfl
  have lo : ∀ (α : Type) (l : List (Doc α)) (d : Doc α),
      d.dateISO = some (.date (utc 2020 10 1 0 0 0)) → d ∈ l → d ∈ l.filter inOctober := by
    intro α l d h hd
    exact (k1 α l d).2 ⟨hd, _, h, le_refl _, by decide⟩
  have hi : ∀ (α : Type) (l : List (Doc α)) (d : Doc α),
      d.dateISO = some (.date (utc 2020 11 1 0 0 0)) → d ∉ l.filter inOctober := by
    intro α l d h hd
    obtain ⟨-, t, ht, -, hlt⟩ := (k1 α l d).1 hd
    rw [h] at ht
    injection ht with ht
    injection ht with ht
    rw [← ht] at hlt
    exact lt_irrefl _ hlt
  have nul : ∀ (α : Type) (l : List (Doc α)) (d : Doc α),
      d.dateISO = none ∨ d.dateISO = some .null → d ∉ l.filter inOctober := by
    intro α l d h hd
    obtain ⟨-, t, ht, -, -⟩ := (k1 α l d).1 hd
    rcases h with h | h <;> rw [h] at ht <;> simp at ht
  refine ⟨k1 _ topics, k1 _ tasks, k1 _ topics, ?_, ?_, ?_, ?_, ?_, ?_, ?_⟩
  · simp [topicsWithTasks, List.map_map, Function.comp_def]
  · intro d h hd
    exact ⟨lo _ topics d h hd, lo _ topics d h hd⟩
  · intro d h hd
    exact lo _ tasks d h hd
  · intro d h
    exact ⟨hi _ topics d h, hi _ topics d h⟩
  · intro d h
    exact hi _ tasks d h
  · intro d h
    exact ⟨nul _ topics d h, nul _ topics d h⟩
  · intro d h
    exact nul _ tasks d h

theorem october_half_open_witness :
    (topicOf 1 "Joins" (utc 2020 11 1 0 0 0)).dateISO = some (.date (utc 2020 11 1 0 0 0))
    ∧ topicOf 1 "Joins" (utc 2020 11 1 0 0 0)
        ∉ topicsOct [topicOf 1 "Joins" (utc 2020 11 1 0 0 0)]
    ∧ topicOf 2 "Indexes" (utc 2020 10 1 0 0 0)
        ∈ topicsOct [topicOf 2 "Indexes" (utc 2020 10 1 0 0 0)] :=
  ⟨rfl,
    ((october_half_open [topicOf 1 "Joins" (utc 2020 11 1 0 0 0)] []).2.2.2.2.2.2.1 _ rfl).1,
    ((october_half_open [topicOf 2 "Indexes" (utc 2020 10 1 0 0 0)] []).2.2.2.2.1 _ rfl
      (by decide)).1⟩

/-! ## Question 5 -/

/-- C9: `menteeCount` is the length of the `mentees` sequence and 0 when the
field is absent or `null`; question 5 returns exactly the mentors with
`menteeCount > 15`, in collection order, so a mentor without `mentees` or
with exactly 15 mentees is left out and one with 16 is returned. -/
theorem bigMentors_threshold (mentors : List (Doc MentorFields)) :
    (∀ (m : Doc MentorFields) (xs : List Scalar),
        m.rest.mentees = .arr xs → menteeCount m = xs.length)
    ∧ (∀ m : Doc MentorFields,
        m.rest.mentees = .absent ∨ m.rest.mentees = .null → menteeCount m = 0)
    ∧ (∀ m : Doc MentorFields, (MentorView.ofDoc m).menteeCount = menteeCount m)
    ∧ bigMentors mentors
        = (mentors.filter (fun m => decide (15 < menteeCount m))).map MentorView.ofDoc
    ∧ (∀ m : Doc MentorFields,
        m.rest.mentees = .absent ∨ m.rest.mentees = .null →
          MentorView.ofDoc m ∉ bigMentors mentors)
    ∧ (∀ (m : Doc MentorFields) (xs : List Scalar),
        m.rest.mentees = .arr xs → xs.length = 15 → MentorView.ofDoc m ∉ bigMentors mentors)
    ∧ (∀ (m : Doc MentorFields) (xs : List Scalar), m ∈ mentors →
        m.rest.mentees = .arr xs → xs.length = 16 → MentorView.ofDoc m ∈ bigMentors mentors) := by
  have harr : ∀ (m : Doc MentorFields) (xs : List Scalar),
      m.rest.mentees = .arr xs → menteeCount m = xs.length := by
    intro m xs h
    simp [menteeCount, ifNullEmpty, h]
  have hnul : ∀ m : Doc MentorFields,
      m.rest.mentees = .absent ∨ m.rest.mentees = .null → menteeCount m = 0 := by
    intro m h
    rcases h with h | h <;> simp [menteeCount, ifNullEmpty, h]
  have hmem : ∀ v, v ∈ bigMentors mentors ↔
      v ∈ mentors.map MentorView.ofDoc ∧ 15 < v.menteeCount := by
    intro v
    simp [bigMentors, List.mem_filter]
  refine ⟨harr, hnul, fun _ => rfl, ?_, ?_, ?_, ?_⟩
  · unfold bigMentors
    rw [List.filter_map]
    rfl
  · intro m h hm
    have h1 := ((hmem _).1 hm).2
    have h2 : (MentorView.ofDoc m).menteeCount = 0 := hnul m h
    omega
  · intro m xs h hlen hm
    have h1 := ((hmem _).1 hm).2
    have h2 : (MentorView.ofDoc m).menteeCount = xs.length := harr m xs h
    omega
  · intro m xs hm h hlen
    refine (hmem _).2 ⟨List.mem_map_of_mem _ hm, ?_⟩
    have h2 : (MentorView.ofDoc m).menteeCount = xs.length := harr m xs h
    omega

theorem bigMentors_threshold_witness :
    (List.replicate 16 (Scalar.num 7)).length = 16
    ∧ MentorView.ofDoc (mentorOf 1 "Asha" (.arr (List.replicate 16 (.num 7))))
        ∈ bigMentors [mentorOf 1 "Asha" (.arr (List.replicate 16 (.num 7))),
            mentorOf 2 "Ravi" .absent]
    ∧ MentorView.ofDoc (mentorOf 2 "Ravi" .absent)
        ∉ bigMentors [mentorOf 1 "Asha" (.arr (List.replicate 16 (.num 7))),
            mentorOf 2 "Ravi" .absent] :=
  ⟨by decide,
    (bigMentors_threshold [mentorOf 1 "Asha" (.arr (List.replicate 16 (.num 7))),
      mentorOf 2 "Ravi" .absent]).2.2.2.2.2.2 _ _ (by decide) rfl (by decide),
    (bigMentors_threshold [mentorOf 1 "Asha" (.arr (List.replicate 16 (.num 7))),
      mentorOf 2 "Ravi" .absent]).2.2.2.2.1 _ (Or.inl rfl)⟩

/-! ## Load step -/

theorem truthy_toISODate_null (parse : String → Option Int) (v : Option Scalar)
    (h : truthy v = false) : toISODate parse v = .null := by
  simp [toISODate, h]

theorem toISODate_unparsed (parse : String → Option Int) (s : String)
    (h : parse s = none) : toISODate parse (some (.str s)) = .null := by
  unfold toISODate
  split
  · rfl
  · simp [newDate, h]

theorem toISODate_null_or_date (parse : String → Option Int) (v : Option Scalar) :
    toISODate parse v = .null ∨ ∃ ms, toISODate parse v = .date ms := by
  unfold toISODate
  split
  · exact Or.inl rfl
  · split
    · exact Or.inr ⟨_, rfl⟩
    · split
      · exact Or.inr ⟨_, rfl⟩
      · exact Or.inl rfl

theorem loadCollection_store {α : Type} (parse : String → Option Int) (name : String)
    (docs : List (Seed α)) (s : Store α) :
    (loadCollection parse name docs s).1
      = fun n => if n = name then docs.map (prepare parse) else s n := by
  funext n
  cases docs with
  | nil => simp [loadCollection, loadOps, StoreOp.run]
  | cons d ds =>
    by_cases h : n = name <;> simp [loadCollection, loadOps, StoreOp.run, h]

/-- C10: loading a collection twice from the same seed set leaves the store and
the printed count as after loading it once; the collection then holds exactly
the prepared records, as many as there are seed records; for an empty seed set
the collection ends empty, only the drop is issued and the count is 0. -/
theorem load_idempotent {α : Type} (parse : String → Option Int) (name : String)
    (docs : List (Seed α)) (s : Store α) :
    loadCollection parse name docs (loadCollection parse name docs s).1
        = loadCollection parse name docs s
    ∧ (loadCollection parse name docs s).1 name = docs.map (prepare parse)
    ∧ ((loadCollection parse name docs s).1 name).length = docs.length
    ∧ (loadCollection parse name docs s).2 = docs.length
    ∧ (loadCollection parse name [] s).1 name = []
    ∧ loadOps parse name ([] : List (Seed α)) = [StoreOp.drop name]
    ∧ (loadCollection parse name [] s).2 = 0 := by
  refine ⟨?_, ?_, ?_, ?_, ?_, ?_, ?_⟩
  · apply Prod.ext
    · rw [loadCollection_store, loadCollection_store]
      funext n
      by_cases h : n = name <;> simp [h]
    · rfl
  · rw [loadCollection_store]; simp
  · rw [loadCollection_store]; simp
  · simp [loadCollection, insertedCount]
  · rw [loadCollection_store]; simp
  · simp [loadOps]
  · simp [loadCollection, insertedCount]

/-- C4: when the raw date field of a seed record is absent, falsy or a string
that does not parse, the normalised field of the loaded record is absent or
`null`, never a date; `toISODate` returns `null` or a date for every input;
and every seed record is loaded with its own fields unchanged. -/
theorem bad_date_no_value {α : Type} (parse : String → Option Int) (doc : Seed α) :
    (doc.date = none ∨ truthy doc.date = false
        ∨ (∃ s, doc.date = some (.str s) ∧ parse s = none) →
      ((prepare parse doc).dateISO = none ∨ (prepare parse doc).dateISO = some .null)
        ∧ ∀ ms, (prepare parse doc).dateISO ≠ some (.date ms))
    ∧ (doc.drive_date = none ∨ truthy doc.drive_date = false
        ∨ (∃ s, doc.drive_date = some (.str s) ∧ parse s = none) →
      ((prepare parse doc).drive_dateISO = none
          ∨ (prepare parse doc).drive_dateISO = some .null)
        ∧ ∀ ms, (prepare parse doc).drive_dateISO ≠ some (.date ms))
    ∧ (∀ v, v = none ∨ truthy v = false ∨ (∃ s, v = some (.str s) ∧ parse s = none) →
        toISODate parse v = .null)
    ∧ (∀ v, toISODate parse v = .null ∨ ∃ ms, toISODate parse v = .date ms)
    ∧ (∀ (name : String) (docs : List (Seed α)) (s : Store α), doc ∈ docs →
        prepare parse doc ∈ (loadCollection parse name docs s).1 name)
    ∧ ((prepare parse doc).date = doc.date ∧ (prepare parse doc).drive_date = doc.drive_date
        ∧ (prepare parse doc).rest = doc.rest ∧ (prepare parse doc).extra = doc.extra) := by
  have hnull : ∀ v, v = none ∨ truthy v = false
      ∨ (∃ s, v = some (.str s) ∧ parse s = none) → toISODate parse v = .null := by
    intro v h
    rcases h with h | h | ⟨s, h, hs⟩
    · subst h; rfl
    · exact truthy_toISODate_null parse v h
    · subst h; exact toISODate_unparsed parse s hs
  have hfield : ∀ v, v = none ∨ truthy v = false
      ∨ (∃ s, v = some (.str s) ∧ parse s = none) →
      ∀ f : Option Scalar, f = (if truthy v then some (toISODate parse v) else none) →
        (f = none ∨ f = some .null) ∧ ∀ ms, f ≠ some (.date ms) := by
    intro v h f hf
    have hn := hnull v h
    by_cases ht : truthy v = true
    · rw [if_pos ht, hn] at hf
      subst hf
      exact ⟨Or.inr rfl, fun ms h => by cases h⟩
    · rw [if_neg ht] at hf
      subst hf
      exact ⟨Or.inl rfl, fun ms h => by cases h⟩
  refine ⟨fun h => hfield _ h _ rfl, fun h => hfield _ h _ rfl, hnull,
    toISODate_null_or_date parse, ?_, rfl, rfl, rfl, rfl⟩
  intro name docs s hd
  rw [loadCollection_store]
  simp only [if_true]
  exact List.mem_map_of_mem _ hd

theorem bad_date_no_value_witness :
    (∃ s, (seedOf (some (.str "soon"))).date = some (.str s) ∧ parseSample s = none)
    ∧ (((prepare parseSample (seedOf (some (.str "soon")))).dateISO = none
        ∨ (prepare parseSample (seedOf (some (.str "soon")))).dateISO = some .null)
      ∧ ∀ ms, (prepare parseSample (seedOf (some (.str "soon")))).dateISO ≠ some (.date ms))
    ∧ prepare parseSample (seedOf (some (.str "soon")))
        ∈ (loadCollection parseSample "attendance" [seedOf (some (.str "soon"))]
            (fun _ => [])).1 "attendance" :=
  ⟨⟨"soon", rfl, by decide⟩,
    (bad_date_no_value parseSample (seedOf (some (.str "soon")))).1
      (Or.inr (Or.inr ⟨"soon", rfl, by decide⟩)),
    (bad_date_no_value parseSample (seedOf (some (.str "soon")))).2.2.2.2.1
      "attendance" [seedOf (some (.str "soon"))] (fun _ => []) (by decide)⟩

/-! ## Question 6 -/

theorem mem_distinct (fields : List (Option Scalar)) (u : Scalar) :
    u ∈ distinct fields ↔ some u ∈ fields := by
  simp [distinct, List.mem_dedup, List.mem_filterMap]

theorem nodup_distinct (fields : List (Option Scalar)) : (distinct fields).Nodup :=
  List.nodup_dedup _

theorem matchEq_iff (v : Scalar) (f : Option Scalar) : matchEq v f = true ↔ f = some v := by
  simp [matchEq]

theorem mem_absentUsers (attendance : List (Doc AttendanceFields)) (u : Scalar) :
    u ∈ absentUsers attendance ↔
      ∃ a ∈ attendance, a.rest.user_id = some u ∧ a.rest.status = some (.str "absent") ∧
        ∃ t, a.dateISO = some (.date t) ∧ startRange ≤ t ∧ t ≤ endRange := by
  unfold absentUsers
  rw [mem_distinct, List.mem_map]
  constructor
  · rintro ⟨a, ha, hu⟩
    rw [List.mem_filter, Bool.and_eq_true, matchEq_iff, inRange_iff] at ha
    exact ⟨a, ha.1, hu, ha.2.1, ha.2.2⟩
  · rintro ⟨a, ha, hu, hs, hr⟩
    refine ⟨a, ?_, hu⟩
    rw [List.mem_filter, Bool.and_eq_true, matchEq_iff, inRange_iff]
    exact ⟨ha, hs, hr⟩

theorem mem_usersWhoDidNotSubmit (attendance : List (Doc AttendanceFields))
    (tasks : List (Doc TaskFields)) (u : Scalar) :
    u ∈ usersWhoDidNotSubmit attendance tasks ↔
      u ∈ absentUsers attendance ∧
      ∃ k ∈ tasks, k.rest.user_id = some u ∧ k.rest.submitted = some (.bool false) ∧
        ∃ t, k.dateISO = some (.date t) ∧ startRange ≤ t ∧ t ≤ endRange := by
  unfold usersWhoDidNotSubmit
  rw [mem_distinct, List.mem_map]
  constructor
  · rintro ⟨k, hk, hu⟩
    rw [List.mem_filter, Bool.and_eq_true, Bool.and_eq_true, matchEq_iff, inRange_iff] at hk
    obtain ⟨hk, ⟨hin, hs⟩, hr⟩ := hk
    rw [hu] at hin
    exact ⟨by simpa [matchIn] using hin, k, hk, hu, hs, hr⟩
  · rintro ⟨hin, k, hk, hu, hs, hr⟩
    refine ⟨k, ?_, hu⟩
    rw [List.mem_filter, Bool.and_eq_true, Bool.and_eq_true, matchEq_iff, inRange_iff]
    refine ⟨hk, ⟨?_, hs⟩, hr⟩
    rw [hu]
    simpa [matchIn] using hin

/-- C1: the count printed by question 6 is the number of distinct user ids `u`
for which some attendance record has `user_id = u`, status `absent` and
`dateISO` in the closed range, and some task has `user_id = u`,
`submitted = false` and `dateISO` in the closed range.  With A and B absent
in range and only B with an unsubmitted task in range, the count is 1. -/
theorem question6_count (attendance : List (Doc AttendanceFields))
    (tasks : List (Doc TaskFields)) :
    (∃ s : Finset Scalar,
      (∀ u, u ∈ s ↔
        (∃ a ∈ attendance, a.rest.user_id = some u ∧ a.rest.status = some (.str "absent") ∧
          ∃ t, a.dateISO = some (.date t) ∧
            utc 2020 10 15 0 0 0 ≤ t ∧ t ≤ utc 2020 10 31 23 59 59) ∧
        (∃ k ∈ tasks, k.rest.user_id = some u ∧ k.rest.submitted = some (.bool false) ∧
          ∃ t, k.dateISO = some (.date t) ∧
            utc 2020 10 15 0 0 0 ≤ t ∧ t ≤ utc 2020 10 31 23 59 59)) ∧
      question6 attendance tasks = s.card)
    ∧ (∀ (A B C : Scalar) (t1 t2 t3 t4 t5 : Int),
        utc 2020 10 15 0 0 0 ≤ t1 → t1 ≤ utc 2020 10 31 23 59 59 →
        utc 2020 10 15 0 0 0 ≤ t2 → t2 ≤ utc 2020 10 31 23 59 59 →
        utc 2020 10 15 0 0 0 ≤ t4 → t4 ≤ utc 2020 10 31 23 59 59 →
        question6
          [attendanceOf 1 A "absent" t1, attendanceOf 2 B "absent" t2,
            attendanceOf 3 C "present" t3]
          [taskOf 1 A true t3, taskOf 2 B false t4, taskOf 3 C true t5] = 1) := by
  have gen : ∀ (attendance : List (Doc AttendanceFields)) (tasks : List (Doc TaskFields)),
      ∃ s : Finset Scalar,
      (∀ u, u ∈ s ↔
        (∃ a ∈ attendance, a.rest.user_id = some u ∧ a.rest.status = some (.str "absent") ∧
          ∃ t, a.dateISO = some (.date t) ∧
            utc 2020 10 15 0 0 0 ≤ t ∧ t ≤ utc 2020 10 31 23 59 59) ∧
        (∃ k ∈ tasks, k.rest.user_id = some u ∧ k.rest.submitted = some (.bool false) ∧
          ∃ t, k.dateISO = some (.date t) ∧
            utc 2020 10 15 0 0 0 ≤ t ∧ t ≤ utc 2020 10 31 23 59 59)) ∧
      question6 attendance tasks = s.card := by
    intro attendance tasks
    refine ⟨(usersWhoDidNotSubmit attendance tasks).toFinset, ?_, ?_⟩
    · intro u
      rw [List.mem_toFinset, mem_usersWhoDidNotSubmit, mem_absentUsers]
      rfl
    · unfold question6
      rw [List.toFinset_card_of_nodup]
      exact nodup_distinct _
  refine ⟨gen attendance tasks, ?_⟩
  intro A B C t1 t2 t3 t4 t5 _ _ h2 h2' h4 h4'
  obtain ⟨s, hs, hcard⟩ := gen
    [attendanceOf 1 A "absent" t1, attendanceOf 2 B "absent" t2, attendanceOf 3 C "present" t3]
    [taskOf 1 A true t3, taskOf 2 B false t4, taskOf 3 C true t5]
  rw [hcard]
  have : s = {B} := by
    ext u
    rw [hs, Finset.mem_singleton]
    constructor
    · rintro ⟨-, k, hk, hu, hsub, -⟩
      simp only [List.mem_cons, List.mem_singleton, List.not_mem_nil, or_false] at hk
      rcases hk with rfl | rfl | rfl
      · simp [taskOf] at hsub
      · simpa [taskOf] using hu.symm
      · simp [taskOf] at hsub
    · rintro rfl
      refine ⟨⟨attendanceOf 2 u "absent" t2, by simp, rfl, rfl, t2, rfl, h2, h2'⟩,
        taskOf 2 u false t4, by simp, rfl, rfl, t4, rfl, h4, h4'⟩
  rw [this, Finset.card_singleton]

theorem question6_count_witness :
    question6
      [attendanceOf 1 (.num 1) "absent" (utc 2020 10 20 0 0 0),
        attendanceOf 2 (.num 2) "absent" (utc 2020 10 21 0 0 0),
        attendanceOf 3 (.num 3) "present" (utc 2020 10 22 0 0 0)]
      [taskOf 1 (.num 1) true (utc 2020 10 22 0 0 0),
        taskOf 2 (.num 2) false (utc 2020 10 23 0 0 0),
        taskOf 3 (.num 3) true (utc 2020 10 24 0 0 0)] = 1 :=
  (question6_count [] []).2 (.num 1) (.num 2) (.num 3) _ _ _ _ _
    (by decide) (by decide) (by decide) (by decide) (by decide) (by decide)

/-! ## Joins (questions 1, 3 and 4) -/

theorem Id.toScalar_ne_null (i : Id) : i.toScalar ≠ Scalar.null := by
  cases i <;> simp [Id.toScalar]

theorem lookupKey_eq_id (f : Option Scalar) (i : Id) :
    lookupKey f = i.toScalar ↔ f = some i.toScalar := by
  cases f with
  | none =>
    simp only [lookupKey, Option.getD_none]
    constructor
    · intro h; exact absurd h.symm (Id.toScalar_ne_null i)
    · intro h; cases h
  | some v => simp [lookupKey]

theorem mem_lookupKeys_id (l : IdList) (i : Id) :
    i.toScalar ∈ lookupKeys l ↔ i.toScalar ∈ ifNullEmpty l := by
  have hn := Id.toScalar_ne_null i
  cases l with
  | absent => simp [lookupKeys, ifNullEmpty, hn]
  | null => simp [lookupKeys, ifNullEmpty, hn]
  | arr xs =>
    cases xs with
    | nil => simp [lookupKeys, ifNullEmpty, hn]
    | cons x xs => simp [lookupKeys, ifNullEmpty]

theorem mem_usersOfKata (users : List (Doc UserFields)) (c : Doc CodeKataFields)
    (u : Doc UserFields) :
    u ∈ usersOfKata users c ↔ u ∈ users ∧ c.rest.user_id = some u.rest._id.toScalar := by
  unfold usersOfKata
  rw [List.mem_filter, beq_iff_eq, eq_comm, lookupKey_eq_id]

theorem mem_tasksOfTopic (tasks : List (Doc TaskFields)) (t : Doc TopicFields)
    (k : Doc TaskFields) :
    k ∈ tasksOfTopic tasks t ↔ k ∈ tasks ∧ k.rest.topic_id = some t.rest._id.toScalar := by
  unfold tasksOfTopic
  rw [List.mem_filter, beq_iff_eq, lookupKey_eq_id]

theorem studentsOfDrive_perm (ord : LookupOrder) (users : List (Doc UserFields))
    (d : Doc DriveFields) :
    (studentsOfDrive ord users d).Perm
      (users.filter fun u =>
        decide (u.rest._id.toScalar ∈ ifNullEmpty d.rest.students_attended)) := by
  have h : (users.filter fun u =>
        decide (u.rest._id.toScalar ∈ lookupKeys d.rest.students_attended))
      = users.filter fun u =>
        decide (u.rest._id.toScalar ∈ ifNullEmpty d.rest.students_attended) := by
    apply List.filter_congr
    intro u _
    simp only [mem_lookupKeys_id]
  unfold studentsOfDrive
  rw [h]
  exact ord.perm d _

theorem mem_studentsOfDrive (ord : LookupOrder) (users : List (Doc UserFields))
    (d : Doc DriveFields) (u : Doc UserFields) :
    u ∈ studentsOfDrive ord users d ↔
      u ∈ users ∧ u.rest._id.toScalar ∈ ifNullEmpty d.rest.students_attended := by
  rw [(studentsOfDrive_perm ord users d).mem_iff, List.mem_filter, decide_eq_true_eq]

theorem mem_solvedPerUser (users : List (Doc UserFields)) (codekata : List (Doc CodeKataFields))
    (r : SolvedRow) :
    r ∈ solvedPerUser users codekata ↔
      ∃ c ∈ codekata, ∃ u ∈ users, c.rest.user_id = some u.rest._id.toScalar ∧
        r = { user_id := c.rest.user_id, user := u.rest.name,
              problems_solved := c.rest.problems_solved } := by
  unfold solvedPerUser rowsOfKata
  simp only [List.mem_flatMap, List.mem_map, mem_usersOfKata]
  constructor
  · rintro ⟨c, hc, u, ⟨hu, hm⟩, rfl⟩
    exact ⟨c, hc, u, hu, hm, rfl⟩
  · rintro ⟨c, hc, u, hu, hm, rfl⟩
    exact ⟨c, hc, u, ⟨hu, hm⟩, rfl⟩

/-- C5 as stated fails for question 4: with one user (id 1) and code-kata
records for users 1 and 2, the record of user 2 matches no user and has no row
in the per-user report. -/
theorem unwind_drops_unmatched :
    kataOf 2 2 3 ∈ [kataOf 1 1 5, kataOf 2 2 3]
    ∧ (∀ u ∈ [userOf 1 "Alice"], (kataOf 2 2 3).rest.user_id ≠ some u.rest._id.toScalar)
    ∧ solvedPerUser [userOf 1 "Alice"] [kataOf 1 1 5, kataOf 2 2 3]
        = [{ user_id := some (.num 1), user := some (.str "Alice"),
             problems_solved := some (.num 5) }]
    ∧ ¬ ∃ r ∈ solvedPerUser [userOf 1 "Alice"] [kataOf 1 1 5, kataOf 2 2 3],
        r.user_id = (kataOf 2 2 3).rest.user_id := by
  decide

/-- C5, amended: in questions 1 and 3 a source record that passes the filter
and whose reference matches no target record is still in the output, with an
empty joined sequence; in question 4 a code-kata record whose `user_id` is the
`_id` of no user yields no row of the per-user report. -/
theorem join_without_match (ord : LookupOrder) (topics : List (Doc TopicFields))
    (tasks : List (Doc TaskFields)) (company_drives : List (Doc DriveFields))
    (users : List (Doc UserFields)) (codekata : List (Doc CodeKataFields)) :
    (∀ t ∈ topics, inOctober t = true →
      (∀ k ∈ tasks, k.rest.topic_id ≠ some t.rest._id.toScalar) →
      ({ _id := t.rest._id, topic := t.rest.topic, date := t.date, tasks := [] }
        : TopicWithTasks) ∈ topicsWithTasks topics tasks)
    ∧ (∀ d ∈ company_drives, driveInRange d = true →
      (∀ u ∈ users, u.rest._id.toScalar ∉ ifNullEmpty d.rest.students_attended) →
      ({ _id := d.rest._id, company := d.rest.company, drive_date := d.drive_date,
         students := [] } : DriveWithStudents)
        ∈ drivesWithStudents ord company_drives users)
    ∧ (∀ c ∈ codekata, (∀ u ∈ users, c.rest.user_id ≠ some u.rest._id.toScalar) →
      rowsOfKata users c = []
        ∧ ∀ r ∈ solvedPerUser users codekata, r.user_id ≠ c.rest.user_id) := by
  refine ⟨?_, ?_, ?_⟩
  · intro t ht hoct hno
    have hempty : tasksOfTopic tasks t = [] := by
      apply List.eq_nil_iff_forall_not_mem.2
      intro k hk
      rw [mem_tasksOfTopic] at hk
      exact hno k hk.1 hk.2
    unfold topicsWithTasks topicsWithTasksMatch
    refine List.mem_map.2 ⟨t, List.mem_filter.2 ⟨ht, hoct⟩, ?_⟩
    simp [hempty]
  · intro d hd hr hno
    have hempty : studentsOfDrive ord users d = [] := by
      apply List.eq_nil_iff_forall_not_mem.2
      intro u hu
      rw [mem_studentsOfDrive] at hu
      exact hno u hu.1 hu.2
    unfold drivesWithStudents
    refine List.mem_map.2 ⟨d, List.mem_filter.2 ⟨hd, hr⟩, ?_⟩
    simp [hempty]
  · intro c _ hno
    have hempty : usersOfKata users c = [] := by
      apply List.eq_nil_iff_forall_not_mem.2
      intro u hu
      rw [mem_usersOfKata] at hu
      exact hno u hu.1 hu.2
    refine ⟨by simp [rowsOfKata, hempty], ?_⟩
    intro r hr heq
    rw [mem_solvedPerUser] at hr
    obtain ⟨c2, -, u, hu, hm, rfl⟩ := hr
    simp only at heq
    exact hno u hu (heq ▸ hm)

theorem join_without_match_witness :
    (∀ u ∈ [userOf 1 "Alice"], u.rest._id.toScalar ∉
        ifNullEmpty (driveOf 1 "Acme" (utc 2020 10 20 0 0 0) [.num 7]).rest.students_attended)
    ∧ ({ _id := .num 1, company := some (.str "Acme"), drive_date := none, students := [] }
        : DriveWithStudents)
        ∈ drivesWithStudents LookupOrder.idIndexScan
            [driveOf 1 "Acme" (utc 2020 10 20 0 0 0) [.num 7]] [userOf 1 "Alice"]
    ∧ rowsOfKata [userOf 1 "Alice"] (kataOf 2 2 3) = [] :=
  ⟨by decide,
    (join_without_match LookupOrder.idIndexScan [] []
      [driveOf 1 "Acme" (utc 2020 10 20 0 0 0) [.num 7]]
      [userOf 1 "Alice"] []).2.1 (driveOf 1 "Acme" (utc 2020 10 20 0 0 0) [.num 7])
      (by decide) (by decide) (by decide),
    ((join_without_match LookupOrder.collectionScan [] [] [] [userOf 1 "Alice"]
      [kataOf 2 2 3]).2.2 (kataOf 2 2 3) (by decide) (by decide)).1⟩

/-! ## Question 4: totals -/

theorem numeric_of_none (f : Option Scalar) (h : numericValue f = none) : numeric f = 0 := by
  rcases f with _ | (_ | b | n | s | ms) <;> simp_all [numericValue, numeric]

theorem numeric_of_some (f : Option Scalar) (n : Int) (h : numericValue f = some n) :
    numeric f = n := by
  rcases f with _ | (_ | b | m | s | ms) <;> simp_all [numericValue, numeric]

theorem numericValue_sum {α : Type} (g : α → Option Scalar) (l : List α) :
    (l.filterMap fun a => numericValue (g a)).sum = (l.map fun a => numeric (g a)).sum
    ∧ ((l.filterMap fun a => numericValue (g a)).map Int.natAbs).sum
        = (l.map fun a => (numeric (g a)).natAbs).sum := by
  induction l with
  | nil => exact ⟨rfl, rfl⟩
  | cons a l ih =>
    obtain ⟨ih1, ih2⟩ := ih
    cases h : numericValue (g a) with
    | none =>
      simp only [List.filterMap_cons, h, List.map_cons, List.sum_cons, numeric_of_none _ h]
      exact ⟨by rw [ih1, zero_add], by rw [ih2]; simp⟩
    | some n =>
      simp only [List.filterMap_cons, h, List.map_cons, List.sum_cons, numeric_of_some _ n h]
      exact ⟨by rw [ih1], by rw [ih2]⟩

theorem storeSum_exact (beyond : List Int → Int) (xs : List Int)
    (h : (xs.map Int.natAbs).sum ≤ 2 ^ 53) : storeSum beyond xs = xs.sum := by
  unfold storeSum
  rw [if_pos h]

theorem reportedTotal_eq_storeSum (beyond : List Int → Int)
    (codekata : List (Doc CodeKataFields)) :
    reportedTotal beyond codekata
      = storeSum beyond (codekata.filterMap fun c => numericValue c.rest.problems_solved) := by
  cases codekata with
  | nil => simp [reportedTotal, totalSolved, storeSum]
  | cons c cs =>
    simp only [reportedTotal, totalSolved]
    split_ifs with h
    · rfl
    · exact (not_not.1 h).symm

theorem reportedTotal_eq_sum (beyond : List Int → Int) (codekata : List (Doc CodeKataFields))
    (h : (codekata.map fun c => (numeric c.rest.problems_solved).natAbs).sum ≤ 2 ^ 53) :
    reportedTotal beyond codekata
      = (codekata.map fun c => numeric c.rest.problems_solved).sum := by
  obtain ⟨h1, h2⟩ := numericValue_sum (fun c : Doc CodeKataFields => c.rest.problems_solved)
    codekata
  rw [reportedTotal_eq_storeSum, storeSum_exact, h1]
  rw [h2]
  exact h

theorem rowsTotal_rowsOfKata (users : List (Doc UserFields)) (c : Doc CodeKataFields) :
    rowsTotal (rowsOfKata users c)
      = numeric c.rest.problems_solved * ((usersOfKata users c).length : Int) := by
  unfold rowsTotal rowsOfKata
  rw [List.map_map]
  induction usersOfKata users c with
  | nil => simp
  | cons u us ih =>
    simp only [List.map_cons, List.sum_cons, List.length_cons, Function.comp_apply, ih]
    push_cast
    ring

theorem rowsTotal_solvedPerUser (users : List (Doc UserFields))
    (codekata : List (Doc CodeKataFields)) :
    rowsTotal (solvedPerUser users codekata)
      = (codekata.map fun c =>
          numeric c.rest.problems_solved * ((usersOfKata users c).length : Int)).sum := by
  induction codekata with
  | nil => rfl
  | cons c cs ih =>
    have happ : solvedPerUser users (c :: cs) = rowsOfKata users c ++ solvedPerUser users cs := by
      simp [solvedPerUser]
    have hsplit : ∀ a b : List SolvedRow, rowsTotal (a ++ b) = rowsTotal a + rowsTotal b := by
      intro a b
      simp [rowsTotal]
    rw [happ, hsplit, ih, rowsTotal_rowsOfKata]
    simp

/-- C6 as stated fails.  With one user (id 1) and code-kata records for users 1
and 2 (5 and 3 problems), the printed total is 8 while the rows of the
per-user report sum to 5.  With two records of user 1 holding 2^53 and 1, where
the store returns the double 9007199254740992, the rows sum to
9007199254740993. -/
theorem total_exceeds_rows :
    (∀ beyond : List Int → Int, reportedTotal beyond [kataOf 1 1 5, kataOf 2 2 3] = 8)
    ∧ rowsTotal (solvedPerUser [userOf 1 "Alice"] [kataOf 1 1 5, kataOf 2 2 3]) = 5
    ∧ (∀ beyond : List Int → Int, reportedTotal beyond [kataOf 1 1 5, kataOf 2 2 3]
        ≠ rowsTotal (solvedPerUser [userOf 1 "Alice"] [kataOf 1 1 5, kataOf 2 2 3]))
    ∧ reportedTotal (fun _ => 9007199254740992)
        [kataOf 1 1 9007199254740992, kataOf 2 1 1] = 9007199254740992
    ∧ rowsTotal (solvedPerUser [userOf 1 "Alice"]
        [kataOf 1 1 9007199254740992, kataOf 2 1 1]) = 9007199254740993 := by
  refine ⟨fun beyond => ?_, by decide, fun beyond => ?_, by decide, by decide⟩
  · exact reportedTotal_eq_sum beyond _ (by decide)
  · rw [reportedTotal_eq_sum beyond _ (by decide)]
    decide

/-- C6, amended: while the absolute values of `problems_solved` add up to at
most 2^53, the printed total is the sum of the numeric `problems_solved` over
all code-kata records; absent or `null` values add nothing and the total of
the empty collection is 0; under the same bound it equals the sum over the
rows of the per-user report whenever every code-kata record joins exactly one
user. -/
theorem total_is_sum (beyond : List Int → Int) (users : List (Doc UserFields))
    (codekata : List (Doc CodeKataFields)) :
    ((codekata.map fun c => (numeric c.rest.problems_solved).natAbs).sum ≤ 2 ^ 53 →
      reportedTotal beyond codekata
        = (codekata.map fun c => numeric c.rest.problems_solved).sum)
    ∧ reportedTotal beyond [] = 0
    ∧ (∀ c : Doc CodeKataFields,
        c.rest.problems_solved = none ∨ c.rest.problems_solved = some .null →
          reportedTotal beyond (c :: codekata) = reportedTotal beyond codekata)
    ∧ ((codekata.map fun c => (numeric c.rest.problems_solved).natAbs).sum ≤ 2 ^ 53 →
        (∀ c ∈ codekata, (usersOfKata users c).length = 1) →
        reportedTotal beyond codekata = rowsTotal (solvedPerUser users codekata)) := by
  refine ⟨reportedTotal_eq_sum beyond codekata, rfl, ?_, ?_⟩
  · intro c h
    rw [reportedTotal_eq_storeSum, reportedTotal_eq_storeSum]
    rcases h with h | h <;> simp [List.filterMap_cons, numericValue, h]
  · intro hb h
    rw [reportedTotal_eq_sum beyond codekata hb, rowsTotal_solvedPerUser]
    congr 1
    apply List.map_congr_left
    intro c hc
    rw [h c hc]
    simp

theorem total_is_sum_witness :
    ([kataOf 1 1 5, kataOf 2 1 3].map fun c => (numeric c.rest.problems_solved).natAbs).sum
        ≤ 2 ^ 53
    ∧ (∀ c ∈ [kataOf 1 1 5, kataOf 2 1 3], (usersOfKata [userOf 1 "Alice"] c).length = 1)
    ∧ reportedTotal (fun _ => 0) [kataOf 1 1 5, kataOf 2 1 3]
        = rowsTotal (solvedPerUser [userOf 1 "Alice"] [kataOf 1 1 5, kataOf 2 1 3]) :=
  ⟨by decide, by decide,
    (total_is_sum (fun _ => 0) [userOf 1 "Alice"] [kataOf 1 1 5, kataOf 2 1 3]).2.2.2
      (by decide) (by decide)⟩

/-- C7 at the scenario of the specification: with the single user Alice and
two code-kata records of hers (5 and 3 problems), the per-user report has two
rows, Alice with 5 and Alice with 3, and no row with 8; the printed total is 8. -/
theorem perUser_rows_not_grouped :
    solvedPerUser [userOf 1 "Alice"] [kataOf 1 1 5, kataOf 2 1 3]
      = [{ user_id := some (.num 1), user := some (.str "Alice"),
           problems_solved := some (.num 5) },
         { user_id := some (.num 1), user := some (.str "Alice"),
           problems_solved := some (.num 3) }]
    ∧ (solvedPerUser [userOf 1 "Alice"] [kataOf 1 1 5, kataOf 2 1 3]).length = 2
    ∧ (∀ r ∈ solvedPerUser [userOf 1 "Alice"] [kataOf 1 1 5, kataOf 2 1 3],
        r.problems_solved ≠ some (.num 8))
    ∧ ∀ beyond : List Int → Int, reportedTotal beyond [kataOf 1 1 5, kataOf 2 1 3] = 8 := by
  refine ⟨by decide, by decide, by decide, fun beyond => ?_⟩
  rw [reportedTotal_eq_storeSum]
  exact storeSum_exact beyond _ (by decide)

/-! ## Question 3: attached students -/

theorem find_id_some (users : List (Doc UserFields)) (i : Scalar) (u : Doc UserFields)
    (h : users.find? (fun u => u.rest._id.toScalar == i) = some u) :
    u ∈ users ∧ u.rest._id.toScalar = i := by
  refine ⟨List.mem_of_find?_eq_some h, ?_⟩
  have := List.find?_some h
  simpa using this

theorem Id.toScalar_injective : Function.Injective Id.toScalar := by
  intro a b h
  cases a <;> cases b <;> simp_all [Id.toScalar]

theorem eq_of_same_id (users : List (Doc UserFields))
    (hn : (users.map fun u => u.rest._id).Nodup) (u v : Doc UserFields)
    (hu : u ∈ users) (hv : v ∈ users) (h : u.rest._id = v.rest._id) : u = v :=
  List.inj_on_of_nodup_map hn hu hv h

theorem mem_studentsInIdOrder (users : List (Doc UserFields))
    (hn : (users.map fun u => u.rest._id).Nodup) (d : Doc DriveFields) (v : StudentView) :
    v ∈ studentsInIdOrder users d ↔
      ∃ u ∈ users, u.rest._id.toScalar ∈ ifNullEmpty d.rest.students_attended
        ∧ v = StudentView.ofDoc u := by
  unfold studentsInIdOrder
  simp only [List.mem_filterMap, Option.map_eq_some']
  constructor
  · rintro ⟨i, hi, u, hf, rfl⟩
    obtain ⟨hu, hid⟩ := find_id_some users i u hf
    exact ⟨u, hu, hid ▸ hi, rfl⟩
  · rintro ⟨u, hu, hi, rfl⟩
    refine ⟨u.rest._id.toScalar, hi, ?_⟩
    cases hf : users.find? (fun w => w.rest._id.toScalar == u.rest._id.toScalar) with
    | none =>
      have := List.find?_eq_none.1 hf u hu
      simp at this
    | some w =>
      obtain ⟨hw, hid⟩ := find_id_some users _ w hf
      have : w = u := eq_of_same_id users hn w u hw hu (Id.toScalar_injective hid)
      exact ⟨w, rfl, by rw [this]⟩

theorem nodup_studentsInIdOrder (users : List (Doc UserFields)) (d : Doc DriveFields)
    (hd : (ifNullEmpty d.rest.students_attended).Nodup) :
    (studentsInIdOrder users d).Nodup := by
  unfold studentsInIdOrder
  apply List.Nodup.filterMap _ hd
  intro i j v hi hj
  simp only [Option.mem_def, Option.map_eq_some'] at hi hj
  obtain ⟨u, hu, rfl⟩ := hi
  obtain ⟨w, hw, hv⟩ := hj
  have h1 := (find_id_some users i u hu).2
  have h2 := (find_id_some users j w hw).2
  have h3 : w.rest._id = u.rest._id := congrArg StudentView._id hv
  rw [← h1, ← h2, h3]

theorem nodup_map_ofDoc (users : List (Doc UserFields))
    (hn : (users.map fun u => u.rest._id).Nodup) :
    (users.map StudentView.ofDoc).Nodup := by
  apply List.Nodup.of_map (fun v : StudentView => v._id)
  rw [List.map_map]
  exact hn

/-- C8 as stated fails on the order.  With users stored as Alice (id 1), Bob
(id 2) and a drive in range attended by `[2, 1]`, a scan of the collection and
a scan of the `_id` index both attach Alice, Bob, not Bob, Alice (the order of
the ids).  With users stored as Bob, Alice and ids `[1, 2]` the two scans
attach different sequences, so no order is fixed. -/
theorem students_not_in_id_order :
    drivesWithStudents LookupOrder.collectionScan
        [driveOf 1 "Acme" (utc 2020 10 20 0 0 0) [.num 2, .num 1]]
        [userOf 1 "Alice", userOf 2 "Bob"]
      = [{ _id := .num 1, company := some (.str "Acme"), drive_date := none,
           students := [{ _id := .num 1, name := some (.str "Alice"), email := none },
                        { _id := .num 2, name := some (.str "Bob"), email := none }] }]
    ∧ drivesWithStudents LookupOrder.idIndexScan
        [driveOf 1 "Acme" (utc 2020 10 20 0 0 0) [.num 2, .num 1]]
        [userOf 1 "Alice", userOf 2 "Bob"]
      = [{ _id := .num 1, company := some (.str "Acme"), drive_date := none,
           students := [{ _id := .num 1, name := some (.str "Alice"), email := none },
                        { _id := .num 2, name := some (.str "Bob"), email := none }] }]
    ∧ studentsInIdOrder [userOf 1 "Alice", userOf 2 "Bob"]
        (driveOf 1 "Acme" (utc 2020 10 20 0 0 0) [.num 2, .num 1])
      = [{ _id := .num 2, name := some (.str "Bob"), email := none },
         { _id := .num 1, name := some (.str "Alice"), email := none }]
    ∧ (∀ r ∈ drivesWithStudents LookupOrder.collectionScan
          [driveOf 1 "Acme" (utc 2020 10 20 0 0 0) [.num 2, .num 1]]
          [userOf 1 "Alice", userOf 2 "Bob"],
        r.students ≠ studentsInIdOrder [userOf 1 "Alice", userOf 2 "Bob"]
          (driveOf 1 "Acme" (utc 2020 10 20 0 0 0) [.num 2, .num 1]))
    ∧ (∀ r ∈ drivesWithStudents LookupOrder.idIndexScan
          [driveOf 1 "Acme" (utc 2020 10 20 0 0 0) [.num 2, .num 1]]
          [userOf 1 "Alice", userOf 2 "Bob"],
        r.students ≠ studentsInIdOrder [userOf 1 "Alice", userOf 2 "Bob"]
          (driveOf 1 "Acme" (utc 2020 10 20 0 0 0) [.num 2, .num 1]))
    ∧ drivesWithStudents LookupOrder.collectionScan
        [driveOf 1 "Acme" (utc 2020 10 20 0 0 0) [.num 1, .num 2]]
        [userOf 2 "Bob", userOf 1 "Alice"]
      ≠ drivesWithStudents LookupOrder.idIndexScan
        [driveOf 1 "Acme" (utc 2020 10 20 0 0 0) [.num 1, .num 2]]
        [userOf 2 "Bob", userOf 1 "Alice"] := by
  decide

/-- C8, amended: whatever order the store gives the joined array, question 3
returns the drives of question 2, and the students attached to a drive are the
projections to `_id`, `name`, `email` of exactly the user records whose `_id`
occurs in the drive's `students_attended`, each record once; with unique ids
the sequence is a rearrangement of the one listed in the order of the ids. -/
theorem students_of_drive (ord : LookupOrder) (company_drives : List (Doc DriveFields))
    (users : List (Doc UserFields)) :
    (drivesWithStudents ord company_drives users).map (fun r => r._id)
      = (drives company_drives).map (fun d => d.rest._id)
    ∧ ∀ r ∈ drivesWithStudents ord company_drives users, ∃ d ∈ drives company_drives,
        r._id = d.rest._id ∧ r.company = d.rest.company ∧ r.drive_date = d.drive_date
        ∧ (∀ v, v ∈ r.students ↔ ∃ u ∈ users,
              u.rest._id.toScalar ∈ ifNullEmpty d.rest.students_attended
              ∧ v = { _id := u.rest._id, name := u.rest.name, email := u.rest.email })
        ∧ r.students.Perm ((users.filter fun u =>
              decide (u.rest._id.toScalar ∈ ifNullEmpty d.rest.students_attended)).map
                StudentView.ofDoc)
        ∧ ((users.map fun u => u.rest._id).Nodup →
            (ifNullEmpty d.rest.students_attended).Nodup →
            r.students.Perm (studentsInIdOrder users d)) := by
  refine ⟨?_, ?_⟩
  · simp [drivesWithStudents, drives, List.map_map, Function.comp_def]
  intro r hr
  unfold drivesWithStudents at hr
  rw [List.mem_map] at hr
  obtain ⟨d, hd, rfl⟩ := hr
  have hperm := (studentsOfDrive_perm ord users d).map StudentView.ofDoc
  have hmem : ∀ v, v ∈ (studentsOfDrive ord users d).map StudentView.ofDoc ↔ ∃ u ∈ users,
        u.rest._id.toScalar ∈ ifNullEmpty d.rest.students_attended
        ∧ v = StudentView.ofDoc u := by
    intro v
    simp only [List.mem_map, mem_studentsOfDrive]
    constructor
    · rintro ⟨u, ⟨hu, hm⟩, rfl⟩
      exact ⟨u, hu, hm, rfl⟩
    · rintro ⟨u, hu, hm, rfl⟩
      exact ⟨u, ⟨hu, hm⟩, rfl⟩
  refine ⟨d, hd, rfl, rfl, rfl, hmem, hperm, ?_⟩
  intro hn hids
  apply (List.perm_ext_iff_of_nodup ?_ (nodup_studentsInIdOrder users d hids)).2
  · intro v
    rw [hmem, mem_studentsInIdOrder users hn]
  · exact hperm.nodup_iff.2
      (((List.filter_sublist _).map _).nodup (nodup_map_ofDoc users hn))

theorem students_of_drive_witness :
    ([userOf 2 "Bob", userOf 1 "Alice", userOf 3 "Carol"].map fun u => u.rest._id).Nodup
    ∧ ([.num 1, .num 5, .num 2] : List Scalar).Nodup
    ∧ ∃ d ∈ drives [driveOf 1 "Acme" (utc 2020 10 20 0 0 0) [.num 1, .num 5, .num 2]],
        ([{ _id := .num 1, name := some (.str "Alice"), email := none },
          { _id := .num 2, name := some (.str "Bob"), email := none }] : List StudentView).Perm
          (studentsInIdOrder [userOf 2 "Bob", userOf 1 "Alice", userOf 3 "Carol"] d) := by
  refine ⟨by decide, by decide, ?_⟩
  obtain ⟨d, hd, -, -, -, -, -, h⟩ :=
    (students_of_drive LookupOrder.idIndexScan
      [driveOf 1 "Acme" (utc 2020 10 20 0 0 0) [.num 1, .num 5, .num 2]]
      [userOf 2 "Bob", userOf 1 "Alice", userOf 3 "Carol"]).2
      { _id := .num 1, company := some (.str "Acme"), drive_date := none,
        students := [{ _id := .num 1, name := some (.str "Alice"), email := none },
                     { _id := .num 2, name := some (.str "Bob"), email := none }] }
      (by decide)
  have hd2 : d = driveOf 1 "Acme" (utc 2020 10 20 0 0 0) [.num 1, .num 5, .num 2] := by
    have := (List.mem_filter.1 hd).1
    simpa using this
  refine ⟨d, hd, h (by decide) ?_⟩
  rw [hd2]
  decide

end Queries
